import Mathlib

/-!
Verification development for the ebook-summaries repository.

The repository ships a browser UI (`App.tsx`, `components/`), two LLM
service layers (a direct Gemini service and a LiteLLM-based service), a
history store, and an EPUB structural-extraction pipeline described in
detail by the specification (container resolver, package parser, path
resolver, content extractor, assembler).  The extraction pipeline's
source file is not part of the source tree we were given, so those
definitions are modelled from the specification's §4; everything else is
translated directly from the TypeScript sources.
-/

namespace EbookSummaries

/-! ## Generic character/string utilities shared by the pipeline model -/

/-- Whitespace characters trimmed by `String.prototype.trim` that can
appear in extracted text: space, tab, newline, carriage return, vertical
tab and form feed. -/
def isWS (c : Char) : Bool :=
  c = ' ' || c = '\t' || c = '\n' || c = '\r' || c = '\x0b' || c = '\x0c'

/-- Remove leading and trailing whitespace from a character list (the
`trim()` step of the pipeline's whole-document normalization). -/
def trimList (cs : List Char) : List Char :=
  ((cs.dropWhile isWS).reverse.dropWhile isWS).reverse

/-- Modelled from the spec: §4.4 step 6 collapses any run of three or
more consecutive newlines down to exactly two.  The counter argument
records how many newlines of the current run have already been emitted;
once two have been emitted, further newlines of the run are dropped. -/
def collapseAux : Nat → List Char → List Char
  | _, [] => []
  | k, c :: rest =>
    if c = '\n' then
      if k ≥ 2 then collapseAux k rest
      else '\n' :: collapseAux (k + 1) rest
    else c :: collapseAux 0 rest

/-- Modelled from the spec: §4.4 step 6, the whole-document
normalization of the content extractor — collapse runs of three or more
newlines to exactly two, then trim leading/trailing whitespace.  The
extraction source file is missing from the tree, so this follows the
spec's words. -/
def normalizeWhitespace (s : String) : String :=
  String.mk (trimList (collapseAux 0 s.data))

/-- No three consecutive newline characters occur in the list. -/
def NoTriple (cs : List Char) : Prop :=
  ∀ l r : List Char, cs ≠ l ++ '\n' :: '\n' :: '\n' :: r

/-- Number of leading newline characters. -/
def nlRun : List Char → Nat
  | [] => 0
  | c :: rest => if c = '\n' then nlRun rest + 1 else 0

/-! ## Path resolver (spec §4.3) -/

/-- Modelled from the spec: §4.3 tokenizes a path into segments,
ignoring empty segments.  The resolver source file is missing from the
tree. -/
def splitSegsAux : List Char → List Char → List String
  | [], cur => if cur.isEmpty then [] else [String.mk cur.reverse]
  | c :: rest, cur =>
    if c = '/' then
      if cur.isEmpty then splitSegsAux rest []
      else String.mk cur.reverse :: splitSegsAux rest []
    else splitSegsAux rest (c :: cur)

/-- Path segments of a string: split on `/`, dropping empty segments. -/
def splitSegs (s : String) : List String :=
  splitSegsAux s.data []

/-- Modelled from the spec: §4.3, one step of the resolver's working
stack — `.` is a no-op, `..` pops the top of the stack if non-empty
(silently ignored on an empty stack), anything else pushes. -/
def resolveStep (stack : List String) (seg : String) : List String :=
  if seg = "." then stack
  else if seg = ".." then stack.dropLast
  else stack ++ [seg]

/-- The resolver's final working stack for a relative href: start from
the base directory's segments and apply each href segment in order. -/
def resolveStack (baseDir relativeHref : String) : List String :=
  (splitSegs relativeHref).foldl resolveStep (splitSegs baseDir)

/-- Join segments with `/`. -/
def joinSegs : List String → String
  | [] => ""
  | [s] => s
  | s :: rest => s ++ "/" ++ joinSegs rest

/-- Modelled from the spec: §4.3 `resolve(baseDir, relativeHref)`.  The
resolver source file is missing from the tree.  A href starting with `/`
is archive-absolute: the leading slash is stripped and the result
returned as is; otherwise the stack algorithm runs and the final stack
is joined with `/`. -/
def resolve (baseDir relativeHref : String) : String :=
  if relativeHref.data.head? = some '/' then String.mk relativeHref.data.tail
  else joinSegs (resolveStack baseDir relativeHref)

/-! ## Content extractor (spec §4.4) -/

/-- Modelled from the spec: a parsed content document's markup tree.
The lenient HTML parser itself is an external library (spec §9); the
extractor walks its node tree, so the model starts from the tree. -/
inductive Node where
  | text (s : String) : Node
  | elem (tag : String) (children : List Node) : Node

/-- Modelled from the spec: §4.4 step 5, non-content elements whose
subtree contributes no text (script, style, embedded-graphics,
no-script, metadata, link, head). -/
def skipTags : List String :=
  ["script", "style", "img", "noscript", "meta", "link", "head"]

/-- Modelled from the spec: §4.4 step 5, block-level elements
(paragraph, division, heading levels 1–6, list-item, block-quote,
section, article, main, header, footer). -/
def blockTags : List String :=
  ["p", "div", "h1", "h2", "h3", "h4", "h5", "h6", "li", "blockquote",
   "section", "article", "main", "header", "footer"]

/-- Tab, carriage-return and newline characters, whose runs inside a
source text node are collapsed to one space. -/
def isTRN (c : Char) : Bool :=
  c = '\t' || c = '\r' || c = '\n'

/-- Collapse every run of tab/carriage-return/newline characters to a
single space.  The flag records whether the previous character belonged
to such a run. -/
def collapseInnerAux : Bool → List Char → List Char
  | _, [] => []
  | inRun, c :: rest =>
    if isTRN c then
      if inRun then collapseInnerAux true rest
      else ' ' :: collapseInnerAux true rest
    else c :: collapseInnerAux false rest

/-- Modelled from the spec: §4.4 step 5, internal whitespace
normalization — runs of tab/carriage-return/newline inside a node's
accumulated source content become one space.  It happens before
structural newlines are added (so those are never collapsed away),
hence it applies to text-node content. -/
def collapseInner (s : String) : String :=
  String.mk (collapseInnerAux false s.data)

/-- Trim leading and trailing whitespace from a string. -/
def trimStr (s : String) : String :=
  String.mk (trimList s.data)

/-- Modelled from the spec: §4.4 step 5, the structural wrapping an
element applies to its children's concatenated text: non-content tags
yield the empty string; block-level tags trim and wrap with one leading
and one trailing newline; a line break yields a single newline; a
table row trims and prefixes one newline; a table cell trims and
surrounds with single spaces; every other tag passes the text through
unchanged. -/
def wrapTag (tag : String) (inner : String) : String :=
  if skipTags.contains tag then ""
  else if blockTags.contains tag then "\n" ++ trimStr inner ++ "\n"
  else if tag = "br" then "\n"
  else if tag = "tr" then "\n" ++ trimStr inner
  else if tag = "td" || tag = "th" then " " ++ trimStr inner ++ " "
  else inner

mutual
/-- Modelled from the spec: §4.4 step 5, the bottom-up tree walk
producing a string per node.  Text nodes contribute their (whitespace
normalized) literal content; elements wrap their children's
concatenated text according to their tag. -/
def walkNode : Node → String
  | .text s => collapseInner s
  | .elem tag cs => wrapTag tag (walkList cs)

/-- Concatenated walk of a list of sibling nodes. -/
def walkList : List Node → String
  | [] => ""
  | n :: ns => walkNode n ++ walkList ns
end

/-- Modelled from the spec: the readable text of one parsed content
document — the tree walk followed by the whole-document newline
collapse and trim (§4.4 steps 5–6). -/
def documentText (doc : List Node) : String :=
  normalizeWhitespace (walkList doc)

/-! ## Manifest, spine, archive and per-entry extraction (spec §3, §4.4) -/

/-- A manifest entry: identifier and href relative to the package
document's directory (spec §3). -/
structure ManifestEntry where
  id : String
  href : String

/-- Hexadecimal digit value, used by percent-decoding. -/
def hexVal (c : Char) : Option Nat :=
  if '0' ≤ c ∧ c ≤ '9' then some (c.toNat - '0'.toNat)
  else if 'a' ≤ c ∧ c ≤ 'f' then some (c.toNat - 'a'.toNat + 10)
  else if 'A' ≤ c ∧ c ≤ 'F' then some (c.toNat - 'A'.toNat + 10)
  else none

/-- Percent-decode a character list: `%XY` with hex digits becomes the
character with code `16*X + Y`; anything else passes through. -/
def percentDecodeAux : List Char → List Char
  | '%' :: a :: b :: rest =>
    match hexVal a, hexVal b with
    | some x, some y => Char.ofNat (16 * x + y) :: percentDecodeAux rest
    | _, _ => '%' :: percentDecodeAux (a :: b :: rest)
  | c :: rest => c :: percentDecodeAux rest
  | [] => []

/-- Modelled from the spec: §4.4 step 3's percent-decoded fallback
lookup path. -/
def percentDecode (s : String) : String :=
  String.mk (percentDecodeAux s.data)

/-- The archive, restricted to parsed content documents: a read-only
association of in-archive paths to parsed markup trees (spec §3). -/
abbrev Archive := List (String × List Node)

/-- Look up an archive entry by exact path. -/
def lookupEntry (a : Archive) (p : String) : Option (List Node) :=
  (a.find? (fun e => e.1 = p)).map (fun e => e.2)

/-- Modelled from the spec: §4.4 steps 1–7 for a single spine idref —
look up the idref in the manifest (absent: skip, `none`); resolve the
href against the package-document directory; locate the backing entry
trying the exact resolved path then its percent-decoded form (neither:
skip); walk the parsed tree and normalize; an empty result contributes
nothing. -/
def extractEntry (a : Archive) (manifest : List ManifestEntry)
    (dir : String) (idref : String) : Option String :=
  match manifest.find? (fun e => e.id = idref) with
  | none => none
  | some entry =>
    let p := resolve dir entry.href
    match (lookupEntry a p).orElse (fun _ => lookupEntry a (percentDecode p)) with
    | none => none
    | some doc =>
      let t := documentText doc
      if t = "" then none else some t

/-- Modelled from the spec: the ordered sequence of non-empty chapter
texts, one per spine entry that yielded readable text (spec §4.4). -/
def chapterTexts (a : Archive) (manifest : List ManifestEntry)
    (spine : List String) (dir : String) : List String :=
  spine.filterMap (extractEntry a manifest dir)

/-! ## Assembler (spec §4.5) -/

/-- The only failure a fully structurally valid container can hit:
no chapter in the whole book yielded readable text. -/
inductive AssembleError where
  | emptyResult : AssembleError
deriving DecidableEq

/-- Modelled from the spec: §4.5/§6, the literal chapter-boundary
sentinel. -/
def SEP : String :=
  "\n\n------------------- CHAPTER BREAK -------------------\n\n"

/-- Modelled from the spec: §4.5, join the ordered chapter texts with
the literal separator (the semantics of `Array.prototype.join`). -/
def joinChapters : List String → String
  | [] => ""
  | [t] => t
  | t :: ts => t ++ SEP ++ joinChapters ts

/-- Modelled from the spec: §4.5, the assembler — `EmptyResultError`
when the sequence is empty, otherwise the joined string. -/
def assembleChapters (texts : List String) : Except AssembleError String :=
  if texts = [] then Except.error AssembleError.emptyResult
  else Except.ok (joinChapters texts)

/-- Modelled from the spec: stages 4–5 of the pipeline on an already
structurally resolved container (archive, manifest, spine and
package-document directory). -/
def extractPipeline (a : Archive) (manifest : List ManifestEntry)
    (spine : List String) (dir : String) : Except AssembleError String :=
  assembleChapters (chapterTexts a manifest spine dir)

/-! ## LLM service layer (geminiService and liteLlmService sources) -/

/-- The summary persona modes of `types.ts`. -/
inductive SummaryMode where
  | HUMAN : SummaryMode
  | AI_AGENT : SummaryMode
  | MARKDOWN : SummaryMode
  | TOPIC_ANALYSIS : SummaryMode
  | CHAPTER_BY_CHAPTER : SummaryMode
deriving DecidableEq

/-- The HUMAN persona string returned by the direct Gemini service for its system instruction. -/
def geminiInstrHUMAN : String :=
  "You are a master editor. Your task is to summarize the provided ebook/document by ruthlessly removing non-important parts while preserving the core narrative and key insights.\n    \n    GUIDELINES FOR HUMAN OUTPUT:\n    - **Readability is paramount.** Write in clear, engaging prose.\n    - **Remove fluff.** Strip out repetitive examples, verbose transitions, and rhetorical filler.\n    - **Structure.** Use main headers for chapters/sections and bullet points for lists.\n    - **Tone.** Maintain the author\x27s voice but speed up the pacing.\n    - **Goal.** A human should be able to read this summary in 5-10 minutes and understand 90% of the book\x27s value."

/-- The AI_AGENT persona string returned by the direct Gemini service for its system instruction. -/
def geminiInstrAI_AGENT : String :=
  "You are a backend data compression engine for an AI Agent. Your task is to convert the provided ebook/document into a highly dense context file.\n    \n    GUIDELINES FOR AI AGENT OUTPUT:\n    - **Density is paramount.** Maximize information per token.\n    - **Remove non-important parts.** Discard all narrative glue, storytelling devices, and politeness.\n    - **Extract.** Focus on Entities, Definitions, Causal Relationships, and Hard Facts.\n    - **Format.** Use a structured Markdown hierarchy or nested bullets.\n    - **Goal.** An LLM should be able to ingest this summary and answer detailed questions about the book without needing the original file.\n    - **No prose.** Do not write paragraphs unless explaining a complex concept. Use fragments and keywords."

/-- The TOPIC_ANALYSIS persona string returned by the direct Gemini service for its system instruction. -/
def geminiInstrTOPIC_ANALYSIS : String :=
  "You are a research analyst. Your task is to ignore the chronological order of the book and instead identify, extract, and synthesize the key topics/themes.\n\n      GUIDELINES FOR TOPIC ANALYSIS:\n      - **Identify Themes.** Find the 5-10 most critical topics or arguments discussed in the book.\n      - **Synthesize.** For each topic, gather evidence, examples, and arguments from across the entire text.\n      - **Format.** Use H2 headers for each Topic, followed by a detailed summary of that specific subject.\n      - **Deep Dive.** Go deep on the \"What\", \"Why\", and \"How\" for each topic.\n      - **Ignore Structure.** Do not summarize chapter by chapter. Group related information together regardless of where it appears in the text."

/-- The CHAPTER_BY_CHAPTER persona string returned by the direct Gemini service for its system instruction. -/
def geminiInstrCHAPTER_BY_CHAPTER : String :=
  "You are a structural editor. Your task is to provide a sequential summary of the book, respecting its internal structure.\n\n      GUIDELINES FOR CHAPTER-BY-CHAPTER:\n      - **Sequential.** Follow the order of the text exactly.\n      - **Identify Chapters.** Look for \"CHAPTER BREAK\" markers or explicit chapter headings in the text to denote sections.\n      - **Summarize.** For each chapter, write a concise summary (3-5 bullet points or a short paragraph) capturing the key events or arguments.\n      - **Format.** Use H2 headers for Chapter Names/Numbers.\n      - **Completeness.** Do not skip chapters. Ensure every section is represented."

/-- The MARKDOWN persona string returned by the direct Gemini service for its system instruction. -/
def geminiInstrMARKDOWN : String :=
  "You are a professional document digitization expert. Your task is to convert the provided ebook/document into a high-fidelity Markdown representation.\n\n    GUIDELINES FOR MARKDOWN CONVERSION:\n    - **Fidelity:** Preserve the original structure, including headers (H1, H2, etc.), lists, and code blocks.\n    - **No Summarization:** Do not summarize. Extract the full content as accurately as possible within output limits.\n    - **Formatting:** Ensure bold, italic, and other emphasis matches the source.\n    - **Tables:** Convert tables into standard Markdown tables.\n    - **Code:** Use fenced code blocks for any code snippets found.\n    - **Images:** You cannot render images, but describe them briefly in [italics in brackets] if they are critical to context.\n    - **Goal:** The output should be a clean, structured Markdown file ready for a static site generator or documentation system."

/-- The HUMAN persona string returned by the LiteLLM based service for its system instruction. -/
def liteLlmInstrHUMAN : String :=
  "You are a master editor. Your task is to summarize the provided ebook/document by ruthlessly removing non-important parts while preserving the core narrative and key insights.\n    \n    GUIDELINES FOR HUMAN OUTPUT:\n    - **Readability is paramount.** Write in clear, engaging prose.\n    - **Remove fluff.** Strip out repetitive examples, verbose transitions, and rhetorical filler.\n    - **Structure.** Use main headers for chapters/sections and bullet points for lists.\n    - **Tone.** Maintain the author\x27s voice but speed up the pacing.\n    - **Goal.** A human should be able to read this summary in 5-10 minutes and understand 90% of the book\x27s value."

/-- The AI_AGENT persona string returned by the LiteLLM based service for its system instruction. -/
def liteLlmInstrAI_AGENT : String :=
  "You are a backend data compression engine for an AI Agent. Your task is to convert the provided ebook/document into a highly dense context file.\n    \n    GUIDELINES FOR AI AGENT OUTPUT:\n    - **Density is paramount.** Maximize information per token.\n    - **Remove non-important parts.** Discard all narrative glue, storytelling devices, and politeness.\n    - **Extract.** Focus on Entities, Definitions, Causal Relationships, and Hard Facts.\n    - **Format.** Use a structured Markdown hierarchy or nested bullets.\n    - **Goal.** An LLM should be able to ingest this summary and answer detailed questions about the book without needing the original file.\n    - **No prose.** Do not write paragraphs unless explaining a complex concept. Use fragments and keywords."

/-- The TOPIC_ANALYSIS persona string returned by the LiteLLM based service for its system instruction. -/
def liteLlmInstrTOPIC_ANALYSIS : String :=
  "You are a research analyst. Your task is to ignore the chronological order of the book and instead identify, extract, and synthesize the key topics/themes.\n\n      GUIDELINES FOR TOPIC ANALYSIS:\n      - **Identify Themes.** Find the 5-10 most critical topics or arguments discussed in the book.\n      - **Synthesize.** For each topic, gather evidence, examples, and arguments from across the entire text.\n      - **Format.** Use H2 headers for each Topic, followed by a detailed summary of that specific subject.\n      - **Deep Dive.** Go deep on the \"What\", \"Why\", and \"How\" for each topic.\n      - **Ignore Structure.** Do not summarize chapter by chapter. Group related information together regardless of where it appears in the text."

/-- The CHAPTER_BY_CHAPTER persona string returned by the LiteLLM based service for its system instruction. -/
def liteLlmInstrCHAPTER_BY_CHAPTER : String :=
  "You are a structural editor. Your task is to provide a sequential summary of the book, respecting its internal structure.\n\n      GUIDELINES FOR CHAPTER-BY-CHAPTER:\n      - **Sequential.** Follow the order of the text exactly.\n      - **Identify Chapters.** Look for \"CHAPTER BREAK\" markers or explicit chapter headings in the text to denote sections.\n      - **Summarize.** For each chapter, write a concise summary (3-5 bullet points or a short paragraph) capturing the key events or arguments.\n      - **Format.** Use H2 headers for Chapter Names/Numbers.\n      - **Completeness.** Do not skip chapters. Ensure every section is represented."

/-- The MARKDOWN persona string returned by the LiteLLM based service for its system instruction. -/
def liteLlmInstrMARKDOWN : String :=
  "You are a professional document digitization expert. Your task is to convert the provided ebook/document into a high-fidelity Markdown representation.\n\n    GUIDELINES FOR MARKDOWN CONVERSION:\n    - **Fidelity:** Preserve the original structure, including headers (H1, H2, etc.), lists, and code blocks.\n    - **No Summarization:** Do not summarize. Extract the full content as accurately as possible within output limits.\n    - **Formatting:** Ensure bold, italic, and other emphasis matches the source.\n    - **Tables:** Convert tables into standard Markdown tables.\n    - **Code:** Use fenced code blocks for any code snippets found.\n    - **Images:** You cannot render images, but describe them briefly in [italics in brackets] if they are critical to context.\n    - **Goal:** The output should be a clean, structured Markdown file ready for a static site generator or documentation system."

/-- `getSystemInstruction` of the direct Gemini service: the persona
string for a mode (the `MARKDOWN` case is also the `default` branch of
the source switch, so the function is total over the enumeration). -/
def geminiGetSystemInstruction : SummaryMode → String
  | SummaryMode.HUMAN => geminiInstrHUMAN
  | SummaryMode.AI_AGENT => geminiInstrAI_AGENT
  | SummaryMode.TOPIC_ANALYSIS => geminiInstrTOPIC_ANALYSIS
  | SummaryMode.CHAPTER_BY_CHAPTER => geminiInstrCHAPTER_BY_CHAPTER
  | SummaryMode.MARKDOWN => geminiInstrMARKDOWN

/-- `getSystemInstruction` of the LiteLLM based service (again total:
`MARKDOWN` doubles as the `default` branch). -/
def liteLlmGetSystemInstruction : SummaryMode → String
  | SummaryMode.HUMAN => liteLlmInstrHUMAN
  | SummaryMode.AI_AGENT => liteLlmInstrAI_AGENT
  | SummaryMode.TOPIC_ANALYSIS => liteLlmInstrTOPIC_ANALYSIS
  | SummaryMode.CHAPTER_BY_CHAPTER => liteLlmInstrCHAPTER_BY_CHAPTER
  | SummaryMode.MARKDOWN => liteLlmInstrMARKDOWN

/-- The temperature the direct Gemini service passes in its request
config: `mode === SummaryMode.HUMAN ? 0.3 : 0.1`. -/
def geminiTemperature (mode : SummaryMode) : ℚ :=
  if mode = SummaryMode.HUMAN then 3 / 10 else 1 / 10

/-- The temperature the LiteLLM based service passes in its request
config: `mode === SummaryMode.HUMAN ? 0.3 : 0.1`. -/
def liteLlmTemperature (mode : SummaryMode) : ℚ :=
  if mode = SummaryMode.HUMAN then 3 / 10 else 1 / 10

/-- JavaScript truthiness of an optional string field: `undefined` and
the empty string are falsy. -/
def truthy : Option String → Bool
  | none => false
  | some s => s ≠ ""

/-- One `part` of a response content (`part.text` may be absent). -/
structure ResponsePart where
  text : Option String

/-- The `content` of a response (`content.parts` may be absent). -/
structure ResponseContent where
  parts : Option (List ResponsePart)

/-- One response yielded by `LiteLlm.generateContentAsync`: either an
error response carrying `errorMessage`, or a content response. -/
structure LlmResponse where
  errorMessage : Option String
  content : Option ResponseContent

/-- The text the LiteLLM `generateSummary` loop appends for one
response: every truthy `part.text` of `response.content?.parts`,
concatenated. -/
def responseText (r : LlmResponse) : String :=
  match r.content with
  | none => ""
  | some c =>
    match c.parts with
    | none => ""
    | some ps =>
      String.join (ps.map (fun p =>
        match p.text with
        | none => ""
        | some t => if t ≠ "" then t else ""))

/-- The `for await` loop of the LiteLLM `generateSummary`
(part_002 lines 109–123), with the async generator shallowly embedded
as the list of responses it yields: a truthy `errorMessage` throws,
discarding the accumulator; otherwise the truthy part texts are
appended to `fullText`. -/
def collectResponses : List LlmResponse → String → Except String String
  | [], acc => Except.ok acc
  | r :: rs, acc =>
    if truthy r.errorMessage then Except.error (r.errorMessage.getD "")
    else collectResponses rs (acc ++ responseText r)

/-- `generateSummary` of the LiteLLM based service after the request is
issued: run the collection loop; on success return
`fullText || "No output generated."`; any thrown error is rethrown by
the catch block as a single `Error` with message
`error.message || "Failed to process document"`. -/
def liteLlmGenerateSummary (responses : List LlmResponse) : Except String String :=
  match collectResponses responses "" with
  | Except.ok t => Except.ok (if t = "" then "No output generated." else t)
  | Except.error m =>
    Except.error (if m = "" then "Failed to process document" else m)

/-- `generateSummary` of the direct Gemini service: a missing or empty
`API_KEY` throws before the request; otherwise the API call either
yields a response whose `text` field (possibly absent or empty) becomes
`response.text || "No output generated."`, or throws, and the catch
block rethrows one `Error` with message
`error.message || "Failed to process document"`. -/
def geminiGenerateSummary (apiKey : Option String)
    (response : Except String (Option String)) : Except String String :=
  if truthy apiKey = false then
    Except.error "API_KEY not found in environment variables"
  else
    match response with
    | Except.ok t =>
      Except.ok (match t with
        | none => "No output generated."
        | some s => if s ≠ "" then s else "No output generated.")
    | Except.error m =>
      Except.error (if m ≠ "" then m else "Failed to process document")


/-! ## History store (historyService source) -/

/-- A stored summary result (`types.ts`). -/
structure SummaryResult where
  id : String
  text : String
  mode : SummaryMode
  fileName : String
  timestamp : Nat

/-- `saveHistoryItem`: prepend the new item to the current history and
limit the list to 20 items.  `localStorage` is embedded by passing the
currently stored list in and returning the list that is written back
(the returned value in the source). -/
def saveHistoryItem (item : SummaryResult) (current : List SummaryResult) :
    List SummaryResult :=
  (item :: current).take 20

/-! ## Upload validation (UploadZone source) -/

/-- `MAX_FILE_SIZE_MB` of `UploadZone.tsx`. -/
def MAX_FILE_SIZE_MB : Nat := 20

/-- Outcome of `handleFile`: `accept` means validation passed and the
file reader is started, so `onFileSelected` is invoked with the listed
MIME type once the read succeeds; `reject` means the error message is
set and `onFileSelected` is never invoked. -/
inductive FileCheck where
  | accept (mimeType : String) : FileCheck
  | reject (message : String) : FileCheck
deriving DecidableEq

/-- ASCII lower-casing of one character (`String.prototype.toLowerCase`
on the ASCII names involved). -/
def toLowerChar (c : Char) : Char :=
  if 'A' ≤ c ∧ c ≤ 'Z' then Char.ofNat (c.toNat + 32) else c

/-- Lower-case a string character-wise. -/
def lowerStr (s : String) : String :=
  String.mk (s.data.map toLowerChar)

/-- `String.prototype.endsWith`. -/
def endsWithStr (s suffix : String) : Bool :=
  suffix.data.isSuffixOf s.data

/-- The `validTypes` array of `handleFile`. -/
def validTypes : List String :=
  ["application/pdf", "text/plain", "application/epub+zip"]

/-- The `isValidType` check of `handleFile`: an accepted MIME type, or
an accepted extension of the lower-cased name (because some systems do
not map `.epub` correctly). -/
def isValidType (name fileType : String) : Bool :=
  validTypes.contains fileType ||
    endsWithStr (lowerStr name) ".pdf" ||
    endsWithStr (lowerStr name) ".txt" ||
    endsWithStr (lowerStr name) ".epub"

/-- The validation logic of `handleFile` (UploadZone.tsx lines 16–64):
reject oversized files, then `.mobi` names, then anything that has
neither an accepted MIME type nor an accepted extension; otherwise
accept, normalizing the MIME type from the extension. -/
def handleFile (size : Nat) (name fileType : String) : FileCheck :=
  if size > MAX_FILE_SIZE_MB * 1024 * 1024 then
    FileCheck.reject "File size exceeds 20MB limit."
  else
    let lname := lowerStr name
    if endsWithStr lname ".mobi" then
      FileCheck.reject "MOBI format is not supported directly. Please convert to EPUB or PDF."
    else
      if isValidType name fileType = false then
        FileCheck.reject "Please upload a PDF, EPUB, or TXT file."
      else
        let m1 := fileType
        let m2 := if endsWithStr lname ".pdf" then "application/pdf" else m1
        let m3 := if endsWithStr lname ".txt" then "text/plain" else m2
        let m4 := if endsWithStr lname ".epub" then "application/epub+zip" else m3
        FileCheck.accept m4

/-! ## Occurrence counting (for the sentinel contract) -/

/-- Number of positions of `s` at which `pat` occurs (as a list of
characters). -/
def occCount (pat s : List Char) : Nat :=
  (List.range s.length).countP (fun i => pat.isPrefixOf (s.drop i))

/-! ## Theorems -/

/-- C3: the pure path resolver satisfies the three reference equations
of spec §8 — `resolve("OEBPS/", "../Images/cover.jpg") = "Images/cover.jpg"`,
`resolve("", "chapter1.html") = "chapter1.html"`,
`resolve("a/b/", "../../c.html") = "c.html"` — and its per-segment
action is exactly the stack algorithm: `.` is a no-op, `..` pops the
top of a non-empty stack and is silently ignored on an empty one, any
other segment pushes. -/
theorem C3_resolve_reference_equations :
    resolve "OEBPS/" "../Images/cover.jpg" = "Images/cover.jpg" ∧
    resolve "" "chapter1.html" = "chapter1.html" ∧
    resolve "a/b/" "../../c.html" = "c.html" ∧
    (∀ (st : List String) (seg : String),
      resolveStep st seg =
        if seg = "." then st
        else if seg = ".." then st.dropLast
        else st ++ [seg]) ∧
    resolveStep [] ".." = [] := by
  refine ⟨by decide, by decide, by decide, fun st seg => rfl, rfl⟩

/-- C5: on the parse tree of the markup `<p>Hello</p><p>World</p>`
(two paragraph elements, each with one text child), the tree walk
followed by the whole-document newline collapse yields exactly
`Hello\n\nWorld`; each block-level paragraph contributes its trimmed
child text wrapped in one leading and one trailing newline. -/
theorem C5_block_wrapping_hello_world :
    documentText [Node.elem "p" [Node.text "Hello"],
                  Node.elem "p" [Node.text "World"]] = "Hello\n\nWorld" ∧
    walkNode (Node.elem "p" [Node.text "Hello"]) = "\nHello\n" ∧
    walkNode (Node.elem "p" [Node.text "World"]) = "\nWorld\n" := by
  refine ⟨by decide, by decide, by decide⟩

/-- C8: the direct Gemini service and the LiteLLM based service compute
the same system-instruction string for every `SummaryMode`, and the same
temperature — 0.3 for `HUMAN`, 0.1 for every other mode; both
`getSystemInstruction` functions are total over the enumeration and
equal as functions. -/
theorem C8_services_equivalent :
    ∀ mode : SummaryMode,
      geminiGetSystemInstruction mode = liteLlmGetSystemInstruction mode ∧
      geminiTemperature mode = liteLlmTemperature mode ∧
      geminiTemperature mode =
        (if mode = SummaryMode.HUMAN then (3 : ℚ) / 10 else (1 : ℚ) / 10) := by
  intro mode
  cases mode <;> exact ⟨rfl, rfl, rfl⟩

/-- Absorption of an inner 20-item truncation by an outer one. -/
theorem take_absorb_inner {α : Type} (n : Nat) (x y : List α) :
    (x ++ y.take n).take n = (x ++ y).take n := by
  rw [List.take_append_eq_append_take, List.take_append_eq_append_take,
    List.take_take]
  have h : ((n - x.length) ⊓ n) = n - x.length :=
    Nat.min_eq_left (Nat.sub_le n x.length)
  rw [h]

/-- Any sequence of saves starting from a bounded history is the
reversed item sequence prepended to it, truncated to 20. -/
theorem saveHistory_foldl (items : List SummaryResult) :
    ∀ init : List SummaryResult,
      items.foldl (fun acc it => saveHistoryItem it acc) (init.take 20) =
        (items.reverse ++ init).take 20 := by
  induction items with
  | nil => intro init; simp
  | cons it its ih =>
    intro init
    rw [List.foldl_cons]
    show its.foldl _ (saveHistoryItem it (init.take 20)) = _
    have h1 : saveHistoryItem it (init.take 20) = (it :: init).take 20 := by
      show ((it :: init.take 20)).take 20 = _
      show (([it] ++ init.take 20)).take 20 = _
      rw [take_absorb_inner]
      rfl
    rw [h1, ih (it :: init), List.reverse_cons, List.append_assoc]
    rfl

/-- C9: `saveHistoryItem` returns a list headed by the new item, of
length at most 20, equal to the new item consed onto the previous
history truncated to 20 entries; consequently any sequence of saves
starting from any initial history yields the newest-first order of the
saved items (latest first) truncated to 20. -/
theorem C9_history_newest_first_bounded :
    ∀ (item : SummaryResult) (current : List SummaryResult),
      (saveHistoryItem item current).head? = some item ∧
      (saveHistoryItem item current).length ≤ 20 ∧
      saveHistoryItem item current = (item :: current).take 20 ∧
      (∀ items : List SummaryResult,
        items.foldl (fun acc it => saveHistoryItem it acc) [] =
          items.reverse.take 20) := by
  intro item current
  refine ⟨?_, ?_, rfl, ?_⟩
  · rw [saveHistoryItem, List.take_succ_cons]
    rfl
  · rw [saveHistoryItem, List.length_take]
    exact Nat.min_le_left _ _
  · intro items
    have h := saveHistory_foldl items []
    simpa using h

/-- C2: on a structurally valid container the pipeline fails with
`EmptyResultError` exactly when no spine entry produced non-empty
extracted text; a spine idref absent from the manifest extracts to
nothing (skipped, no error), and the pipeline still succeeds whenever
at least one spine entry yields text. -/
theorem C2_empty_result_iff_no_chapter (a : Archive)
    (manifest : List ManifestEntry) (spine : List String) (dir : String) :
    (extractPipeline a manifest spine dir =
        Except.error AssembleError.emptyResult ↔
      ∀ idref ∈ spine, extractEntry a manifest dir idref = none) ∧
    (∀ idref, manifest.find? (fun e => e.id = idref) = none →
      extractEntry a manifest dir idref = none) ∧
    ((∃ idref ∈ spine, extractEntry a manifest dir idref ≠ none) →
      ∃ out, extractPipeline a manifest spine dir = Except.ok out) := by
  have hiff : extractPipeline a manifest spine dir =
      Except.error AssembleError.emptyResult ↔
      chapterTexts a manifest spine dir = [] := by
    rw [extractPipeline, assembleChapters]
    constructor
    · intro h
      by_contra hne
      rw [if_neg hne] at h
      exact Except.noConfusion h
    · intro h
      rw [if_pos h]
  constructor
  · rw [hiff, chapterTexts, List.filterMap_eq_nil_iff]
  constructor
  · intro idref hnone
    rw [extractEntry, hnone]
  · intro ⟨idref, hmem, hsome⟩
    have hne : chapterTexts a manifest spine dir ≠ [] := by
      intro hnil
      rw [chapterTexts, List.filterMap_eq_nil_iff] at hnil
      exact hsome (hnil idref hmem)
    refine ⟨joinChapters (chapterTexts a manifest spine dir), ?_⟩
    rw [extractPipeline, assembleChapters, if_neg hne]

/-- C2 witness: a container whose spine references the missing idref
`ghost` before a chapter which extracts to `Hello` still assembles
successfully, the missing reference is skipped, and the pipeline result
is not the empty-result error. -/
theorem C2_empty_result_iff_no_chapter_witness :
    (∃ out,
      extractPipeline [("ch1.html", [Node.elem "p" [Node.text "Hello"]])]
        [⟨"c1", "ch1.html"⟩] ["ghost", "c1"] "" = Except.ok out) ∧
    extractEntry [("ch1.html", [Node.elem "p" [Node.text "Hello"]])]
      [⟨"c1", "ch1.html"⟩] "" "ghost" = none := by
  refine ⟨?_, by decide⟩
  exact (C2_empty_result_iff_no_chapter
      [("ch1.html", [Node.elem "p" [Node.text "Hello"]])]
      [⟨"c1", "ch1.html"⟩] ["ghost", "c1"] "").2.2
    ⟨"c1", by decide, by decide⟩

/-- The LiteLLM response loop: while no response is an error response,
the part texts accumulate onto `acc`; the first truthy `errorMessage`
throws it, discarding the accumulator. -/
theorem collectResponses_error (r : LlmResponse) (post : List LlmResponse)
    (herr : truthy r.errorMessage = true) :
    ∀ (pre : List LlmResponse) (acc : String),
      (∀ q ∈ pre, truthy q.errorMessage = false) →
      collectResponses (pre ++ r :: post) acc =
        Except.error (r.errorMessage.getD "") := by
  intro pre
  induction pre with
  | nil =>
    intro acc _
    rw [List.nil_append, collectResponses, if_pos herr]
  | cons q qs ih =>
    intro acc hclean
    have hq : truthy q.errorMessage = false := hclean q (List.mem_cons_self q qs)
    rw [List.cons_append, collectResponses, if_neg (by rw [hq]; exact fun h => Bool.noConfusion h)]
    exact ih _ (fun x hx => hclean x (List.mem_cons_of_mem q hx))

/-- C7: each service invocation yields either one complete output
string or one error value, never partial output.  In the LiteLLM
streaming loop, an error response thrown mid-stream produces exactly
the error message and discards every part text accumulated from the
responses before it; and the direct Gemini `generateSummary` resolves
to a single string or rejects with a single error for every API-key
state and API outcome. -/
theorem C7_all_or_nothing :
    (∀ (pre post : List LlmResponse) (r : LlmResponse),
      truthy r.errorMessage = true →
      (∀ q ∈ pre, truthy q.errorMessage = false) →
      liteLlmGenerateSummary (pre ++ r :: post) =
        Except.error (r.errorMessage.getD "")) ∧
    (∀ responses : List LlmResponse,
      (∃ s, liteLlmGenerateSummary responses = Except.ok s) ∨
      (∃ m, liteLlmGenerateSummary responses = Except.error m)) ∧
    (∀ (key : Option String) (resp : Except String (Option String)),
      (∃ s, geminiGenerateSummary key resp = Except.ok s) ∨
      (∃ m, geminiGenerateSummary key resp = Except.error m)) := by
  refine ⟨?_, ?_, ?_⟩
  · intro pre post r herr hclean
    rw [liteLlmGenerateSummary, collectResponses_error r post herr pre "" hclean]
    have hm : r.errorMessage.getD "" ≠ "" := by
      revert herr
      rw [truthy.eq_def]
      match r.errorMessage with
      | none => exact fun h => Bool.noConfusion h
      | some s => exact fun h => of_decide_eq_true h
    show Except.error (if r.errorMessage.getD "" = "" then _ else r.errorMessage.getD "") = _
    rw [if_neg hm]
  · intro responses
    match h : collectResponses responses "" with
    | Except.ok t =>
      left
      refine ⟨if t = "" then "No output generated." else t, ?_⟩
      rw [liteLlmGenerateSummary, h]
    | Except.error m =>
      right
      refine ⟨if m = "" then "Failed to process document" else m, ?_⟩
      rw [liteLlmGenerateSummary, h]
  · intro key resp
    rw [geminiGenerateSummary.eq_def]
    by_cases hk : truthy key = false
    · right
      exact ⟨_, by rw [if_pos hk]⟩
    · rw [if_neg hk]
      match resp with
      | Except.ok t => exact Or.inl ⟨_, rfl⟩
      | Except.error m => exact Or.inr ⟨_, rfl⟩

/-- C7 witness: a stream that yields a content response carrying
`partial text` and then an error response with message `boom` makes the
LiteLLM `generateSummary` reject with exactly `boom`, discarding the
accumulated text. -/
theorem C7_all_or_nothing_witness :
    liteLlmGenerateSummary
      [⟨none, some ⟨some [⟨some "partial text"⟩]⟩⟩,
       ⟨some "boom", none⟩] = Except.error "boom" := by
  exact C7_all_or_nothing.1 [⟨none, some ⟨some [⟨some "partial text"⟩]⟩⟩] []
    ⟨some "boom", none⟩ (by decide) (by decide)

/-- C10: `handleFile` leads to `onFileSelected` (an accept) exactly
when the file is at most 20 × 1024 × 1024 bytes, is not named `.mobi`,
and has an accepted MIME type (`application/pdf`, `text/plain`,
`application/epub+zip`) or an accepted extension (`.pdf`, `.txt`,
`.epub`); an oversized file, a `.mobi` file, and a file of any other
type each set an error message instead and never reach the callback. -/
theorem C10_upload_validation (size : Nat) (name fileType : String) :
    ((∃ m, handleFile size name fileType = FileCheck.accept m) ↔
      (size ≤ 20 * 1024 * 1024 ∧
        endsWithStr (lowerStr name) ".mobi" = false ∧
        isValidType name fileType = true)) ∧
    (size > 20 * 1024 * 1024 →
      handleFile size name fileType =
        FileCheck.reject "File size exceeds 20MB limit.") ∧
    (size ≤ 20 * 1024 * 1024 → endsWithStr (lowerStr name) ".mobi" = true →
      handleFile size name fileType =
        FileCheck.reject
          "MOBI format is not supported directly. Please convert to EPUB or PDF.") ∧
    (isValidType name fileType = false →
      ∀ m, handleFile size name fileType ≠ FileCheck.accept m) := by
  by_cases h1 : size > 20 * 1024 * 1024 <;>
    by_cases h2 : endsWithStr (lowerStr name) ".mobi" = true <;>
      by_cases h3 : isValidType name fileType = true <;>
        simp [handleFile, MAX_FILE_SIZE_MB, h1, h2, h3] <;>
          omega

/-- C10 witness: a 21 MiB PDF is rejected with the size message, a
`.mobi` file is rejected with the conversion message, and a small
`.epub` file with an empty MIME type is accepted. -/
theorem C10_upload_validation_witness :
    handleFile (21 * 1024 * 1024) "book.pdf" "application/pdf" =
      FileCheck.reject "File size exceeds 20MB limit." ∧
    handleFile 1000 "book.mobi" "application/octet-stream" =
      FileCheck.reject
        "MOBI format is not supported directly. Please convert to EPUB or PDF." ∧
    (∃ m, handleFile 1000 "book.epub" "" = FileCheck.accept m) := by
  refine ⟨?_, ?_, ?_⟩
  · exact (C10_upload_validation (21 * 1024 * 1024) "book.pdf"
      "application/pdf").2.1 (by decide)
  · exact (C10_upload_validation 1000 "book.mobi"
      "application/octet-stream").2.2.1 (by decide) (by decide)
  · exact ((C10_upload_validation 1000 "book.epub" "").1).mpr
      ⟨by decide, by decide, by decide⟩

/-- A segment list is dot-free when no segment equals `.` or `..`. -/
def noDots (segs : List String) : Bool :=
  segs.all (fun s => s ≠ "." && s ≠ "..")

/-- One resolver step keeps the working stack dot-free: `.` leaves it
unchanged, `..` only removes, and every pushed segment differs from
both. -/
theorem noDots_resolveStep {st : List String} (seg : String)
    (h : noDots st = true) : noDots (resolveStep st seg) = true := by
  rw [resolveStep]
  by_cases h1 : seg = "."
  · rw [if_pos h1]; exact h
  · rw [if_neg h1]
    by_cases h2 : seg = ".."
    · rw [if_pos h2]
      rw [noDots, List.all_eq_true] at h ⊢
      intro x hx
      exact h x ((List.dropLast_sublist st).subset hx)
    · rw [if_neg h2]
      rw [noDots, List.all_eq_true] at h ⊢
      intro x hx
      rcases List.mem_append.mp hx with hmem | hmem
      · exact h x hmem
      · have hxs : x = seg := List.mem_singleton.mp hmem
        subst hxs
        simp [h1, h2]

/-- Folding resolver steps over any segment list keeps the stack
dot-free. -/
theorem noDots_resolveStack_foldl (segs : List String) :
    ∀ st : List String, noDots st = true →
      noDots (segs.foldl resolveStep st) = true := by
  induction segs with
  | nil => exact fun st h => h
  | cons s ss ih => exact fun st h => ih _ (noDots_resolveStep s h)

/-- C4 counterexample: the claim quantifies over every base directory,
but with base directory `..` and href `a` the resolver output is
`../a`, a path with an unresolved `..` segment that escapes the archive
root. -/
theorem C4_counterexample :
    resolve ".." "a" = "../a" ∧
    splitSegs (resolve ".." "a") = ["..", "a"] ∧
    noDots (resolveStack ".." "a") = false := by
  refine ⟨by decide, by decide, by decide⟩

/-- C4 (amended): for every base directory whose own segments contain
no `.` or `..` entries — as holds for a directory derived from an
in-archive package-document path — and every relative href (not
starting with `/`), including hrefs with more `..` segments than the
base has depth, resolution is total, a `..` on an empty stack is
silently ignored, and the final stack contains no `.` and no unresolved
`..` segment, so the joined result is a root-relative path that never
escapes the archive root. -/
theorem C4_no_root_escape (baseDir relativeHref : String)
    (hbase : noDots (splitSegs baseDir) = true)
    (hrel : relativeHref.data.head? ≠ some '/') :
    noDots (resolveStack baseDir relativeHref) = true ∧
    resolve baseDir relativeHref =
      joinSegs (resolveStack baseDir relativeHref) ∧
    resolveStep [] ".." = [] := by
  refine ⟨noDots_resolveStack_foldl _ _ hbase, ?_, rfl⟩
  rw [resolve, if_neg hrel]

/-- C4 witness: from the dot-free base directory `a/b`, the href
`../../../c.html` (one `..` more than the base depth) resolves without
error to a dot-free stack. -/
theorem C4_no_root_escape_witness :
    noDots (resolveStack "a/b" "../../../c.html") = true ∧
    resolve "a/b" "../../../c.html" =
      joinSegs (resolveStack "a/b" "../../../c.html") ∧
    resolveStep [] ".." = [] :=
  C4_no_root_escape "a/b" "../../../c.html" (by decide) (by decide)

/-- A non-empty pattern is not a prefix of the empty list. -/
theorem isPrefixOf_nil_eq_false {pat : List Char} (hpat : pat ≠ []) :
    pat.isPrefixOf ([] : List Char) = false := by
  match pat with
  | [] => exact absurd rfl hpat
  | c :: rest => rfl

/-- If a non-empty pattern occurs nowhere strictly before its inserted
copy and nowhere strictly after it, it occurs exactly once in
`x ++ pat ++ y`. -/
theorem occCount_sandwich (pat x y : List Char) (hpat : pat ≠ [])
    (hx : ∀ i < x.length, pat.isPrefixOf ((x ++ pat).drop i) = false)
    (hy : ∀ j, 0 < j → pat.isPrefixOf ((pat ++ y).drop j) = false) :
    occCount pat (x ++ pat ++ y) = 1 := by
  rw [occCount]
  have hplen : 0 < pat.length := List.length_pos.mpr hpat
  have hq : ∀ i ∈ List.range (x ++ pat ++ y).length,
      (pat.isPrefixOf ((x ++ pat ++ y).drop i) = true ↔ (i == x.length) = true) := by
    intro i hi
    constructor
    · intro hpre
      by_contra hne
      have hne' : i ≠ x.length := by simpa using hne
      rcases Nat.lt_or_ge i x.length with hlt | hge
      · have hdrop : (x ++ pat ++ y).drop i = (x ++ pat).drop i ++ y := by
          rw [List.drop_append_eq_append_drop]
          have hz : i - (x ++ pat).length = 0 := by
            simp [List.length_append]; omega
          rw [hz, List.drop_zero]
        rw [hdrop] at hpre
        have hpfx : pat <+: (x ++ pat).drop i ++ y :=
          List.isPrefixOf_iff_prefix.mp hpre
        have hlen2 : pat.length ≤ ((x ++ pat).drop i).length := by
          rw [List.length_drop, List.length_append]; omega
        have hpfx2 : pat <+: (x ++ pat).drop i := by
          rw [List.prefix_iff_eq_take] at hpfx ⊢
          rw [List.take_append_eq_append_take] at hpfx
          have hz2 : pat.length - ((x ++ pat).drop i).length = 0 := by omega
          rw [hz2, List.take_zero, List.append_nil] at hpfx
          exact hpfx
        have hfalse := hx i hlt
        rw [List.isPrefixOf_iff_prefix.mpr hpfx2] at hfalse
        exact Bool.noConfusion hfalse
      · have hj : 0 < i - x.length := by omega
        have hdrop : (x ++ pat ++ y).drop i = (pat ++ y).drop (i - x.length) := by
          rw [List.append_assoc, List.drop_append_eq_append_drop,
            List.drop_eq_nil_of_le (by omega), List.nil_append]
        rw [hdrop] at hpre
        have hfalse := hy (i - x.length) hj
        rw [hpre] at hfalse
        exact Bool.noConfusion hfalse
    · intro hbeq
      have hieq : i = x.length := by simpa using hbeq
      subst hieq
      rw [List.append_assoc, List.drop_left]
      exact List.isPrefixOf_iff_prefix.mpr (List.prefix_append pat y)
  rw [List.countP_congr hq]
  have hcnt : (List.range (x ++ pat ++ y).length).countP (fun i => i == x.length)
      = List.count x.length (List.range (x ++ pat ++ y).length) := rfl
  rw [hcnt]
  have hmem : x.length ∈ List.range (x ++ pat ++ y).length := by
    rw [List.mem_range]
    simp [List.length_append]
    omega
  have hpos : 0 < List.count x.length (List.range (x ++ pat ++ y).length) :=
    List.count_pos_iff.mpr hmem
  have hle : List.count x.length (List.range (x ++ pat ++ y).length) ≤ 1 :=
    List.nodup_iff_count_le_one.mp (List.nodup_range _) _
  omega

/-- C1 counterexample: a well-formed two-chapter container whose two
chapters extract to the non-empty texts `Hello` and
`a\n\n------------------- CHAPTER BREAK -------------------\n\nb` (the
second chapter is an ordinary three-paragraph document whose middle
paragraph spells the sentinel line) assembles successfully, but the
output contains the chapter-break sentinel at two positions, not
exactly one. -/
theorem C1_counterexample :
    extractEntry
        [("ch1.html", [Node.elem "p" [Node.text "Hello"]]),
         ("ch2.html",
          [Node.elem "p" [Node.text "a"],
           Node.elem "p"
             [Node.text "------------------- CHAPTER BREAK -------------------"],
           Node.elem "p" [Node.text "b"]])]
        [⟨"c1", "ch1.html"⟩, ⟨"c2", "ch2.html"⟩] "" "c1" = some "Hello" ∧
    extractEntry
        [("ch1.html", [Node.elem "p" [Node.text "Hello"]]),
         ("ch2.html",
          [Node.elem "p" [Node.text "a"],
           Node.elem "p"
             [Node.text "------------------- CHAPTER BREAK -------------------"],
           Node.elem "p" [Node.text "b"]])]
        [⟨"c1", "ch1.html"⟩, ⟨"c2", "ch2.html"⟩] "" "c2" =
      some ("a" ++ SEP ++ "b") ∧
    extractPipeline
        [("ch1.html", [Node.elem "p" [Node.text "Hello"]]),
         ("ch2.html",
          [Node.elem "p" [Node.text "a"],
           Node.elem "p"
             [Node.text "------------------- CHAPTER BREAK -------------------"],
           Node.elem "p" [Node.text "b"]])]
        [⟨"c1", "ch1.html"⟩, ⟨"c2", "ch2.html"⟩] ["c1", "c2"] "" =
      Except.ok ("Hello" ++ SEP ++ ("a" ++ SEP ++ "b")) ∧
    occCount SEP.data ("Hello" ++ SEP ++ ("a" ++ SEP ++ "b")).data = 2 := by
  refine ⟨by decide, by decide, rfl, by decide⟩

/-- C1 (amended): for any two non-empty chapter texts, the assembler
output is the first text, the separator, then the second text — the
ordered chapter texts joined with exactly the literal sentinel, which
holds for any number of chapters — and the output contains exactly one
occurrence of the sentinel provided the sentinel does not occur
starting inside the first chapter (no occurrence in
`chapter1 ++ SEP` before its end) and does not occur after the
insertion point (no occurrence in `SEP ++ chapter2` after its start);
in particular the chapter texts must not themselves reproduce the
sentinel. -/
theorem C1_assembler_separator (c1 c2 : String)
    (hne1 : c1 ≠ "") (hne2 : c2 ≠ "")
    (H1 : ∀ i < c1.data.length,
      SEP.data.isPrefixOf ((c1.data ++ SEP.data).drop i) = false)
    (H2 : ∀ j < SEP.data.length + c2.data.length, 0 < j →
      SEP.data.isPrefixOf ((SEP.data ++ c2.data).drop j) = false) :
    assembleChapters [c1, c2] = Except.ok (c1 ++ SEP ++ c2) ∧
    occCount SEP.data (c1 ++ SEP ++ c2).data = 1 ∧
    (∀ texts : List String, texts ≠ [] →
      assembleChapters texts = Except.ok (joinChapters texts)) := by
  have hsep : SEP.data ≠ [] := by decide
  refine ⟨rfl, ?_, ?_⟩
  · have hdata : (c1 ++ SEP ++ c2).data = c1.data ++ SEP.data ++ c2.data := by
      rw [String.data_append, String.data_append]
    rw [hdata]
    refine occCount_sandwich SEP.data c1.data c2.data hsep H1 ?_
    intro j hj
    by_cases hlt : j < SEP.data.length + c2.data.length
    · exact H2 j hlt hj
    · have hlen : (SEP.data ++ c2.data).length ≤ j := by
        rw [List.length_append]; omega
      rw [List.drop_eq_nil_of_le hlen]
      exact isPrefixOf_nil_eq_false hsep
  · intro texts hne
    rw [assembleChapters, if_neg hne]

/-- C1 witness: for the chapter texts `Hello` and `World` the
assembler emits `Hello`, the sentinel, then `World`, with exactly one
occurrence of the sentinel. -/
theorem C1_assembler_separator_witness :
    assembleChapters ["Hello", "World"] =
      Except.ok ("Hello" ++ SEP ++ "World") ∧
    occCount SEP.data ("Hello" ++ SEP ++ "World").data = 1 ∧
    (∀ texts : List String, texts ≠ [] →
      assembleChapters texts = Except.ok (joinChapters texts)) :=
  C1_assembler_separator "Hello" "World" (by decide) (by decide)
    (by decide) (by decide)


theorem noTriple_nil : NoTriple [] := by
  intro l r h
  cases l <;> simp at h

theorem noTriple_tail {c : Char} {cs : List Char} (h : NoTriple (c :: cs)) :
    NoTriple cs := by
  intro l r hcs
  exact h (c :: l) r (by rw [List.cons_append]; rw [hcs])

theorem noTriple_cons_of_ne {c : Char} {cs : List Char} (hc : c ≠ '\n')
    (h : NoTriple cs) : NoTriple (c :: cs) := by
  intro l r heq
  match l, heq with
  | [], heq =>
    rw [List.nil_append] at heq
    exact hc (List.cons.inj heq).1
  | a :: l2, heq =>
    rw [List.cons_append] at heq
    exact h l2 r (List.cons.inj heq).2

theorem nlRun_destruct {cs : List Char} (h : 0 < nlRun cs) :
    ∃ cs2, cs = '\n' :: cs2 := by
  match cs with
  | [] => simp [nlRun] at h
  | c :: rest =>
    by_cases hc : c = '\n'
    · exact ⟨rest, by rw [hc]⟩
    · simp [nlRun, hc] at h

theorem noTriple_cons_nl {cs : List Char} (h : NoTriple cs)
    (hrun : nlRun cs ≤ 1) : NoTriple ('\n' :: cs) := by
  intro l r heq
  match l, heq with
  | [], heq =>
    rw [List.nil_append] at heq
    have hcs : cs = '\n' :: '\n' :: r := (List.cons.inj heq).2
    rw [hcs] at hrun
    simp [nlRun] at hrun
  | a :: l2, heq =>
    rw [List.cons_append] at heq
    exact h l2 r (List.cons.inj heq).2

theorem nlRun_le_two {cs : List Char} (h : NoTriple cs) : nlRun cs ≤ 2 := by
  by_contra hgt
  push_neg at hgt
  obtain ⟨cs1, h1⟩ := nlRun_destruct (show 0 < nlRun cs by omega)
  rw [h1] at hgt
  simp [nlRun] at hgt
  obtain ⟨cs2, h2⟩ := nlRun_destruct (show 0 < nlRun cs1 by omega)
  rw [h2] at hgt
  simp [nlRun] at hgt
  obtain ⟨cs3, h3⟩ := nlRun_destruct (show 0 < nlRun cs2 by omega)
  exact h [] cs3 (by rw [h1, h2, h3]; rfl)

theorem collapseAux_noTriple (cs : List Char) :
    ∀ k : Nat, NoTriple (collapseAux k cs) ∧
      nlRun (collapseAux k cs) + min k 2 ≤ 2 := by
  induction cs with
  | nil =>
    intro k
    refine ⟨noTriple_nil, ?_⟩
    show nlRun [] + min k 2 ≤ 2
    simp [nlRun]
  | cons c rest ih =>
    intro k
    by_cases hc : c = '\n'
    · by_cases hk : k ≥ 2
      · rw [collapseAux, if_pos hc, if_pos hk]
        exact ih k
      · rw [collapseAux, if_pos hc, if_neg hk]
        obtain ⟨hnt, hrun⟩ := ih (k + 1)
        refine ⟨noTriple_cons_nl hnt (by omega), ?_⟩
        simp only [nlRun, reduceIte]
        omega
    · rw [collapseAux, if_neg hc]
      obtain ⟨hnt, hrun⟩ := ih 0
      refine ⟨noTriple_cons_of_ne hc hnt, ?_⟩
      simp only [nlRun, if_neg hc]
      omega

theorem collapseAux_eq_self (cs : List Char) :
    ∀ k : Nat, NoTriple cs → nlRun cs + min k 2 ≤ 2 → collapseAux k cs = cs := by
  induction cs with
  | nil => intro k _ _; rfl
  | cons c rest ih =>
    intro k hnt hrun
    by_cases hc : c = '\n'
    · subst hc
      simp only [nlRun, reduceIte] at hrun
      have hk : ¬ k ≥ 2 := by omega
      rw [collapseAux, if_pos rfl, if_neg hk]
      rw [ih (k + 1) (noTriple_tail hnt) (by omega)]
    · rw [collapseAux, if_neg hc]
      rw [ih 0 (noTriple_tail hnt) (by
        have := nlRun_le_two (noTriple_tail hnt)
        omega)]

theorem noTriple_of_contained {y x : List Char} (hinf : y <:+: x) (h : NoTriple x) :
    NoTriple y := by
  obtain ⟨s, t, rfl⟩ := hinf
  intro l r heq
  refine h (s ++ l) (r ++ t) ?_
  rw [heq]
  simp [List.append_assoc]

theorem trimList_prefix_dropWhile (cs : List Char) :
    trimList cs <+: cs.dropWhile isWS := by
  rw [trimList]
  have h1 : ((cs.dropWhile isWS).reverse.dropWhile isWS) <:+ (cs.dropWhile isWS).reverse :=
    List.dropWhile_suffix isWS
  have h2 := List.reverse_prefix.mpr h1
  rw [List.reverse_reverse] at h2
  exact h2

theorem trimList_contained (cs : List Char) : trimList cs <:+: cs :=
  (trimList_prefix_dropWhile cs).isInfix.trans (List.dropWhile_suffix isWS).isInfix

theorem trimList_trimList (cs : List Char) :
    trimList (trimList cs) = trimList cs := by
  have ha : (trimList cs).dropWhile isWS = trimList cs := by
    match hx : trimList cs with
    | [] => rfl
    | c :: t =>
      obtain ⟨u, hu⟩ := trimList_prefix_dropWhile cs
      rw [hx] at hu
      have hhead := List.head?_dropWhile_not isWS cs
      rw [← hu] at hhead
      simp at hhead
      rw [List.dropWhile_cons, if_neg (by rw [hhead]; exact fun hf => Bool.noConfusion hf)]
  have hb : (trimList cs).reverse.dropWhile isWS = (trimList cs).reverse := by
    rw [trimList, List.reverse_reverse]
    exact List.dropWhile_idempotent isWS _
  rw [trimList.eq_def, ha, hb, List.reverse_reverse]

/-- C6: the whole-document newline normalization is idempotent. -/
theorem C6_normalize_idempotent (s : String) :
    normalizeWhitespace (normalizeWhitespace s) = normalizeWhitespace s := by
  show String.mk (trimList (collapseAux 0 (trimList (collapseAux 0 s.data)))) = _
  obtain ⟨hy1, hy2⟩ := collapseAux_noTriple s.data 0
  have hnt : NoTriple (trimList (collapseAux 0 s.data)) :=
    noTriple_of_contained (trimList_contained _) hy1
  have h1 : collapseAux 0 (trimList (collapseAux 0 s.data)) =
      trimList (collapseAux 0 s.data) :=
    collapseAux_eq_self _ 0 hnt (by have := nlRun_le_two hnt; omega)
  rw [h1, trimList_trimList]
  rfl

end EbookSummaries
